import Mathlib

/-!
A shallow embedding of `wyoming_rhasspy_speech/web_server.py`: the
background-job and streaming-progress machinery of the web server — the
`/api/download` and `/api/train` streaming generators, the training worker
`train_model` with its log queue and `None` sentinel, the transcriber-table
invalidation performed by `api_train`, and the `/sentences` POST handler.

Generators are embedded as functions from an environment (the outcomes of the
external calls the body makes: HTTP reads, clock readings, the external
training library) to the list of chunks they yield.  The thread/queue
hand-off is embedded as the list of items the worker places on the queue, and
the interleaving of two concurrent `/api/train` handlers as a small labelled
transition system.
-/

/-! ## The training worker and the `/api/train` generator -/

/-- A Python `logging.LogRecord` as far as the server uses it:
`getMessage()` returns the formatted message string. -/
structure LogRecord where
  msg : String
  deriving DecidableEq

/-- The `LogRecord.getMessage()` call at web_server.py line 135. -/
def LogRecord.getMessage (r : LogRecord) : String := r.msg

/-- One run of the external `rhasspy_speech.train_model` call made by the
worker `train_model` (web_server.py lines 251-260): `logs` are the records
the `rhasspy_speech` loggers emit (each delivered synchronously to the
`QueueHandler` installed by `do_training`), and `raises = some m` when the
call terminates by raising an exception whose message is `m`.  Records logged
to `_LOGGER` (logger `wyoming_rhasspy_speech.web_server`, lines 245 and 261)
are not children of logger `rhasspy_speech`, so they never reach the queue
handler and do not appear here. -/
structure TrainRun where
  logs : List LogRecord
  raises : Option String
  deriving DecidableEq

/-- The sequence of items the worker `train_model` (web_server.py lines
243-265) places on `log_queue`: the body's log records are enqueued by the
`QueueHandler` as they are emitted; whether the external call returns
normally or raises, the `finally` block then enqueues the `None` sentinel
(`log_queue.put(None)`, line 265).  An exception raised by the body is not
put on the queue and not logged to it: it propagates out of the daemon
thread (to `threading.excepthook`) after the `finally` block runs. -/
def train_model (run : TrainRun) : List (Option LogRecord) :=
  let bodyItems :=
    match run.raises with
    | none => run.logs.map some
    | some _ => run.logs.map some
  bodyItems ++ [none]

/-- The drain loop of `do_training` (web_server.py lines 130-136):
`log_queue.get()` repeatedly, breaking on `None`, yielding
`log_item.getMessage() + "\n"` for every record, then yielding
`"Training complete\n"` after the break.  An exhausted list with no sentinel
corresponds to `log_queue.get()` blocking forever, so nothing further is
yielded in that case. -/
def drainLoop : List (Option LogRecord) → List String
  | [] => []
  | none :: _ => ["Training complete\n"]
  | some r :: rest => (r.getMessage ++ "\n") :: drainLoop rest

/-- The generator `do_training` (web_server.py lines 115-140) as the list of
chunks it yields when driven to completion against queue contents `queue`:
`"Training started\n"` first, then the drain loop.  The `except` clause at
line 137 catches only exceptions raised inside the generator body itself
(queue operations and `Thread` start, none of which fail in this model); an
exception raised inside the `train_model` worker thread never reaches it. -/
def do_training (queue : List (Option LogRecord)) : List String :=
  "Training started\n" :: drainLoop queue

/-! ## The `api_train` handler: events and the transcriber table -/

/-- An event performed by one `/api/train` request (web_server.py lines
108-142), in execution order: enter `async with state.transcribers_lock`,
`state.transcribers.pop(model_id, None)`, leave the `async with` block, the
generator's chunk yields, and the `Thread(...).start()` call for the training
worker. -/
inductive TrainEvent where
  | acquireLock
  | invalidate (modelId : String)
  | releaseLock
  | startWorker
  | yieldChunk (s : String)
  deriving DecidableEq

/-- Events that belong to the training job proper: producing stream output
or starting the training worker thread. -/
def TrainEvent.isJobEvent : TrainEvent → Bool
  | .startWorker => true
  | .yieldChunk _ => true
  | _ => false

/-- The ordered events of one `/api/train` request driven to completion:
the handler acquires `state.transcribers_lock`, pops the model's cached
transcriber, releases the lock, and returns the streaming response; the
generator `do_training` then yields `"Training started\n"`, starts the
worker thread (lines 124-129), and streams the drain loop's chunks. -/
def api_train_events (modelId : String) (queue : List (Option LogRecord)) :
    List TrainEvent :=
  [TrainEvent.acquireLock, TrainEvent.invalidate modelId, TrainEvent.releaseLock,
    TrainEvent.yieldChunk "Training started\n", TrainEvent.startWorker]
    ++ (drainLoop queue).map TrainEvent.yieldChunk

/-- The effect of `state.transcribers.pop(model_id, None)` (line 113) on the
in-memory transcriber table, modelled as a map from model id to an optional
cached handle. -/
def api_train_transcribers (t : String → Option Nat) (modelId : String) :
    String → Option Nat :=
  fun k => if k = modelId then none else t k

/-! ## Two concurrent `/api/train` requests for the same model id

The handler holds the single `state.transcribers_lock` only across the
`pop` (lines 112-113); the training generator runs after the lock is
released.  The interleaving of two requests for one key is a transition
system over the phase of each request and the lock bit. -/

/-- The phase of one `/api/train` request for the contended key: arrived,
holding the lock before the pop, after the pop but still inside the
`async with`, lock released with the `Response` returned but the generator
not yet started, generator running (job in progress), finished. -/
inductive JobPhase where
  | start
  | locked
  | popped
  | released
  | running
  | done
  deriving DecidableEq, Fintype

/-- The joint state of two concurrent `/api/train` requests for the same
model id: whether `state.transcribers_lock` is held, and each request's
phase. -/
structure TrainSys where
  lockHeld : Bool
  job1 : JobPhase
  job2 : JobPhase
  deriving DecidableEq, Fintype

/-- One request's next step given the lock bit, following the handler's
straight-line code: `async with state.transcribers_lock` blocks while the
lock is held and otherwise acquires it; the pop happens inside it; leaving
the block releases the lock; the generator then starts and eventually
finishes, with the lock free the whole time. -/
def phaseStep (lockHeld : Bool) : JobPhase → Option (Bool × JobPhase)
  | .start => if lockHeld then none else some (true, .locked)
  | .locked => some (lockHeld, .popped)
  | .popped => some (false, .released)
  | .released => some (lockHeld, .running)
  | .running => some (lockHeld, .done)
  | .done => none

/-- Interleaving: either request takes its next enabled step. -/
inductive TrainStep : TrainSys → TrainSys → Prop where
  | j1 {s : TrainSys} {l : Bool} {p : JobPhase} :
      phaseStep s.lockHeld s.job1 = some (l, p) →
      TrainStep s { lockHeld := l, job1 := p, job2 := s.job2 }
  | j2 {s : TrainSys} {l : Bool} {p : JobPhase} :
      phaseStep s.lockHeld s.job2 = some (l, p) →
      TrainStep s { lockHeld := l, job1 := s.job1, job2 := p }

/-- Both requests have arrived and the lock is free. -/
def initSys : TrainSys :=
  { lockHeld := false, job1 := JobPhase.start, job2 := JobPhase.start }

/-- States the two-request system can reach from `initSys`. -/
inductive TrainReachable : TrainSys → Prop where
  | init : TrainReachable initSys
  | step {s s' : TrainSys} : TrainReachable s → TrainStep s s' → TrainReachable s'

/-- A request is inside the lock-protected section (between acquiring
`state.transcribers_lock` and leaving the `async with` block). -/
def inCritical (p : JobPhase) : Prop := p = JobPhase.locked ∨ p = JobPhase.popped

instance (p : JobPhase) : Decidable (inCritical p) := by
  unfold inCritical; infer_instance

/-- A request's "invalidate → running" window is open: it has popped the
cached handle and its job has not finished. -/
def windowActive (p : JobPhase) : Prop :=
  p = JobPhase.popped ∨ p = JobPhase.released ∨ p = JobPhase.running

instance (p : JobPhase) : Decidable (windowActive p) := by
  unfold windowActive; infer_instance

/-- Inductive invariant of the two-request system: a request inside the
lock-protected section implies the lock bit is set, and the two requests are
never inside it simultaneously. -/
def trainInvB (s : TrainSys) : Bool :=
  (!(decide (inCritical s.job1)) || s.lockHeld)
    && ((!(decide (inCritical s.job2))) || s.lockHeld)
    && (!(decide (inCritical s.job1) && decide (inCritical s.job2)))

/-- The state in which both requests' training jobs are running at once. -/
def overlapSys : TrainSys :=
  { lockHeld := false, job1 := JobPhase.running, job2 := JobPhase.running }

/-! ## The `/api/download` generator -/

/-- One successful `model_response.read(DOWNLOAD_CHUNK_SIZE)` result in the
download loop: its size in bytes and the `time.monotonic()` value read at
web_server.py line 88 just after the chunk is written. -/
structure Chunk where
  size : Nat
  time : ℚ
  deriving DecidableEq

/-- Python `int()` applied to a Content-Length header value (line 77): a
non-empty string of decimal digits parses to its decimal value; anything
else raises `ValueError`. -/
def parsePyInt (s : String) : Option Nat :=
  if s.data ≠ [] ∧ s.data.all Char.isDigit then
    some (s.data.foldl (fun n c => n * 10 + (c.toNat - '0'.toNat)) 0)
  else none

/-- The progress line yielded by the download loop body (lines 90-93): a
truncated percentage when the total byte count is known and positive,
otherwise a raw byte count.  Python's
`int((bytes_downloaded / total_bytes) * 100)` on non-negative values is
modelled as exact truncation, `bytesDownloaded * 100 / total` in natural
division. -/
def progressLine (total : Option Nat) (bytesDownloaded : Nat) : String :=
  match total with
  | some t =>
    if 0 < t then toString (bytesDownloaded * 100 / t) ++ "%\n"
    else "Bytes downloaded: " ++ toString bytesDownloaded ++ "\n"
  | none => "Bytes downloaded: " ++ toString bytesDownloaded ++ "\n"

/-- The download loop (lines 83-95): write each chunk, add its size to
`bytes_downloaded`, read `current_time`, and when strictly more than one
second has passed since `last_report_time` yield a progress line and set
`last_report_time = current_time`.  Each yielded line is paired with the
`current_time` of the report that produced it. -/
def chunkLoopT (total : Option Nat) :
    List Chunk → Nat → ℚ → List (ℚ × String)
  | [], _, _ => []
  | c :: rest, bytesDownloaded, lastReportTime =>
    let bytes := bytesDownloaded + c.size
    if 1 < c.time - lastReportTime then
      (c.time, progressLine total bytes) :: chunkLoopT total rest bytes c.time
    else
      chunkLoopT total rest bytes lastReportTime

/-- The progress lines of the download loop, without their report times. -/
def chunkLoop (total : Option Nat) (chunks : List Chunk) (bytesDownloaded : Nat)
    (lastReportTime : ℚ) : List String :=
  (chunkLoopT total chunks bytesDownloaded lastReportTime).map Prod.snd

/-- The environment one `/api/download` request runs against: the requested
model id, whether `MODELS.get(model_id)` finds it, whether `urlopen` raises,
the `Content-Length` header value, the initial `time.monotonic()` reading of
line 80, the successful reads in order, and whether a later read/write, or
the extraction step, raises (with the exception's message). -/
structure DownloadEnv where
  modelId : String
  modelKnown : Bool
  urlopenErr : Option String
  contentLength : Option String
  startTime : ℚ
  chunks : List Chunk
  readErr : Option String
  extractErr : Option String
  deriving DecidableEq

/-- How a run of the generator's `try` body ends: completing normally having
yielded `lines`, or raising an exception with message `msg` after yielding
`lines`. -/
inductive BodyOutcome where
  | ok (lines : List String)
  | fail (lines : List String) (msg : String)
  deriving DecidableEq

/-- The lines the `try` body yielded, in either outcome. -/
def BodyOutcome.lines : BodyOutcome → List String
  | .ok ls => ls
  | .fail ls _ => ls

/-- Lines 80-102 of the `try` body, after the Content-Length handling:
the chunk loop's progress lines, `"Download complete\n"`, the extraction
(`mkdir` / `tarfile ... extractall`, which may raise), then
`"Model extracted\n"` and `"Return to models page to continue\n"`.
`pre` carries the lines already yielded before the loop and `total` the
parsed total byte count. -/
def downloadRest (env : DownloadEnv) (pre : List String) (total : Option Nat) :
    BodyOutcome :=
  let prog := chunkLoop total env.chunks 0 env.startTime
  match env.readErr with
  | some m => .fail (pre ++ prog) m
  | none =>
    match env.extractErr with
    | some m => .fail (pre ++ prog ++ ["Download complete\n"]) m
    | none =>
      .ok (pre ++ prog ++ ["Download complete\n", "Model extracted\n",
        "Return to models page to continue\n"])

/-- The `try` body of the generator `download_model` (lines 68-102): the
`assert model is not None` check with its f-string message, the `urlopen`
call, the Content-Length handling of lines 74-78 (`if content_length:` is
Python truthiness, so an absent header and an empty header value both skip
the block; a non-empty value goes through `int()`, which may raise, and on
success yields the `"Expecting <N> byte(s)\n"` line), then the rest. -/
def download_body (env : DownloadEnv) : BodyOutcome :=
  if env.modelKnown = false then
    .fail [] ("Unknown model: " ++ env.modelId)
  else
    match env.urlopenErr with
    | some m => .fail [] m
    | none =>
      match env.contentLength with
      | none => downloadRest env [] none
      | some cl =>
        if cl.isEmpty then
          downloadRest env [] none
        else
          match parsePyInt cl with
          | none => .fail [] ("invalid literal for int() with base 10: " ++ cl)
          | some n =>
            downloadRest env ["Expecting " ++ toString n ++ " byte(s)\n"] (some n)

/-- The generator `download_model` (lines 67-104) as the list of chunks it
yields: the `try` body's yields and, when the body raises at any point, the
single final `"ERROR: " + str(err)` chunk of line 104 — with no trailing
newline — after which the generator returns without propagating the
exception. -/
def download_model (env : DownloadEnv) : List String :=
  match download_body env with
  | .ok lines => lines
  | .fail lines m => lines ++ ["ERROR: " ++ m]

/-- A chunk is newline-terminated: its last character is `'\n'`. -/
def endsWithNewline (s : String) : Prop := s.data.getLast? = some '\n'

instance (s : String) : Decidable (endsWithNewline s) := by
  unfold endsWithNewline; infer_instance

/-- A chunk of the form `"ERROR: <message>"`. -/
def isErrorChunk (s : String) : Prop := "ERROR: ".data <+: s.data

instance (s : String) : Decidable (isErrorChunk s) := by
  unfold isErrorChunk; infer_instance

/-- A download environment whose model id is unknown to `MODELS`: the
`assert` at line 70 fails immediately. -/
def downloadEnvUnknownModel : DownloadEnv :=
  { modelId := "x", modelKnown := false, urlopenErr := none,
    contentLength := none, startTime := 0, chunks := [],
    readErr := none, extractErr := none }

/-- A download environment whose response carries a `Content-Length` header
with an empty value: `if content_length:` is false, so no
`"Expecting ..."` line is yielded although the header is present, and the
job succeeds. -/
def downloadEnvEmptyContentLength : DownloadEnv :=
  { modelId := "en-test", modelKnown := true, urlopenErr := none,
    contentLength := some "", startTime := 0, chunks := [],
    readErr := none, extractErr := none }

/-- A download environment for a successful run with a numeric
Content-Length, fully read in the first `read` call (so no progress report
is due). -/
def downloadEnvHappy : DownloadEnv :=
  { modelId := "en-test", modelKnown := true, urlopenErr := none,
    contentLength := some "1000", startTime := 0, chunks := [],
    readErr := none, extractErr := none }

/-! ## The `/sentences` POST handler -/

/-- A YAML value as `safe_load` returns it, restricted to the shapes the
handler inspects. -/
inductive Yaml where
  | ynull
  | ybool (b : Bool)
  | yint (n : Int)
  | ystr (s : String)
  | ylist (items : List Yaml)
  | ydict (entries : List (String × Yaml))

/-- Python equality between a string and a YAML value: a string equals only
an equal string (`str == non-str` is `False` in Python). -/
def yamlIsStr (key : String) : Yaml → Bool
  | .ystr s => s == key
  | _ => false

/-- Lookup in a parsed YAML mapping (keys are unique, as `safe_load`
produces them). -/
def dictLookup : List (String × Yaml) → String → Option Yaml
  | [], _ => none
  | (k, v) :: rest, key => if k = key then some v else dictLookup rest key

/-- Python's `key in value` on the shapes `safe_load` can return: key
membership for a mapping, substring test for a string, element membership
for a list, and a `TypeError` for the non-iterable shapes. -/
def pyContains (key : String) : Yaml → Except String Bool
  | .ydict es => .ok (dictLookup es key).isSome
  | .ystr s => .ok (decide (key.data <:+: s.data))
  | .ylist items => .ok (items.any (yamlIsStr key))
  | .ynull => .error "argument of type NoneType is not iterable"
  | .ybool _ => .error "argument of type bool is not iterable"
  | .yint _ => .error "argument of type int is not iterable"

/-- Python's `value[key]` with a string key: mapping lookup (`KeyError` when
absent), `TypeError` on every other shape. -/
def pySubscript : Yaml → String → Except String Yaml
  | .ydict es, key =>
    match dictLookup es key with
    | some v => .ok v
    | none => .error ("KeyError: " ++ key)
  | .ystr _, _ => .error "string indices must be integers"
  | .ylist _, _ => .error "list indices must be integers"
  | .ynull, _ => .error "NoneType object is not subscriptable"
  | .ybool _, _ => .error "bool object is not subscriptable"
  | .yint _, _ => .error "int object is not subscriptable"

/-- Python truthiness of a YAML value. -/
def truthy : Yaml → Bool
  | .ynull => false
  | .ybool b => b
  | .yint n => decide (n ≠ 0)
  | .ystr s => !s.isEmpty
  | .ylist items => !items.isEmpty
  | .ydict es => !es.isEmpty

/-- Python's `d.get(key, default)` on a mapping; on any other shape the
handler would raise, but validation only lets mappings through, so the
default is returned in the unreachable cases. -/
def pyDictGetD : Yaml → String → Yaml → Yaml
  | .ydict es, key, dflt => (dictLookup es key).getD dflt
  | _, _, dflt => dflt

/-- The validation steps of the `try` block (web_server.py lines 152-156):
`safe_load` (its outcome is `loadResult`), then
`assert "sentences" in sentences_dict, "Missing sentences block"`, then
`assert sentences_dict["sentences"], "No sentences"`; any raised exception —
a parse error, a `TypeError` from the membership test or subscript, or a
failing `assert` — is the error the `except` branch renders. -/
def validateSentences (loadResult : Except String Yaml) : Except String Yaml :=
  match loadResult with
  | .error e => .error e
  | .ok d =>
    match pyContains "sentences" d with
    | .error e => .error e
    | .ok false => .error "Missing sentences block"
    | .ok true =>
      match pySubscript d "sentences" with
      | .error e => .error e
      | .ok v => if truthy v then .ok d else .error "No sentences"

/-- The state the `/sentences` POST handler can mutate: per model id, the
contents of `train_dir/<id>/sentences.yaml` and the `state.skip_words`
entry. -/
structure SentencesState where
  files : String → Option String
  skipWords : String → Option Yaml

/-- The POST branch of the `sentences` route (lines 150-171): validate the
posted body; on success create the parent directory, write the body to
`sentences.yaml`, set `state.skip_words[model_id]` to
`sentences_dict.get("skip_words", [])` and redirect (result `true`); on any
exception leave every file and every `skip_words` entry untouched and
re-render the form with the error (result `false`). -/
def sentences_post (modelId : String) (body : String)
    (loadResult : Except String Yaml) (st : SentencesState) :
    SentencesState × Bool :=
  match validateSentences loadResult with
  | .error _ => (st, false)
  | .ok d =>
    ({ files := fun k => if k = modelId then some body else st.files k,
       skipWords := fun k =>
         if k = modelId then some (pyDictGetD d "skip_words" (.ylist []))
         else st.skipWords k },
      true)

/-! ## Helper lemmas -/

/-- Unfolding of the worker's queue contents: the emitted records in order,
then the sentinel, in both the normal and the raising case. -/
theorem train_model_eq (run : TrainRun) :
    train_model run = run.logs.map some ++ [none] := by
  cases run with
  | mk logs raises => cases raises <;> rfl

/-! ## The claims -/

/-- C1: the claim says a training job whose body raises with message `m`
ends the stream with `"ERROR: m"`.  The code does not: the exception is
raised inside the worker thread, the `finally` block still enqueues the
`None` sentinel, and `do_training` — which never sees the exception — breaks
on the sentinel and yields `"Training complete\n"`.  Evaluated at the
claim's own failing input (`rhasspy_speech.train_model` raises
"kaldi binary not found" having emitted no log records): the stream is
`"Training started\n"`, `"Training complete\n"`, and the line
`"ERROR: kaldi binary not found"` appears nowhere in it. -/
theorem C1_train_failure_still_streams_training_complete :
    do_training (train_model { logs := [], raises := some "kaldi binary not found" })
        = ["Training started\n", "Training complete\n"]
      ∧ "ERROR: kaldi binary not found"
          ∉ do_training (train_model { logs := [], raises := some "kaldi binary not found" }) := by
  constructor
  · rfl
  · decide

/-- C3: for every execution of the training worker — whether the external
training call returns normally or raises — exactly one `None` end-of-stream
sentinel is placed on the log queue, it is the last item placed, and every
earlier item is a log record (not `None`), so a consumer draining the queue
until `None` terminates after finitely many receive operations. -/
theorem C3_sentinel_exactly_once_and_last (run : TrainRun) :
    (train_model run).count none = 1
      ∧ (train_model run).getLast? = some none
      ∧ ∀ x ∈ (train_model run).dropLast, x ≠ none := by
  rw [train_model_eq]
  refine ⟨?_, ?_, ?_⟩
  · induction run.logs with
    | nil => rfl
    | cons r rs ih => simpa using ih
  · exact List.getLast?_concat _
  · rw [List.dropLast_concat]
    intro x hx
    rcases List.mem_map.1 hx with ⟨r, _, rfl⟩
    simp

/-- C7: for every sequence of log records placed on the training log queue
before the `None` sentinel (and whatever sits behind the sentinel), the
`/api/train` stream yields `"Training started\n"` first, then one chunk per
record — the record's message verbatim followed by a newline — in exactly
enqueue order with nothing dropped, duplicated or reordered, then
`"Training complete\n"`. -/
theorem C7_stream_preserves_log_order (records : List LogRecord)
    (rest : List (Option LogRecord)) :
    do_training (records.map some ++ none :: rest)
      = "Training started\n"
          :: (records.map (fun r => r.getMessage ++ "\n") ++ ["Training complete\n"]) := by
  unfold do_training
  congr 1
  induction records with
  | nil => rfl
  | cons r rs ih => simpa [drainLoop] using ih

/-- C9: for every `/api/train` request with model id `K`, the cached
transcriber handle for `K` is removed under the table's lock (the removal
event sits strictly between the lock acquisition and release) before the
training job produces any output or starts the training worker (every job
event has index at least 3, the removal index 1), and the removal touches no
entry for any key other than `K`. -/
theorem C9_invalidation_under_lock_before_training (t : String → Option Nat)
    (K : String) (queue : List (Option LogRecord)) :
    (api_train_events K queue)[0]? = some TrainEvent.acquireLock
      ∧ (api_train_events K queue)[1]? = some (TrainEvent.invalidate K)
      ∧ (api_train_events K queue)[2]? = some TrainEvent.releaseLock
      ∧ (∀ j e, (api_train_events K queue)[j]? = some e →
          e.isJobEvent = true → 3 ≤ j)
      ∧ api_train_transcribers t K K = none
      ∧ (∀ k, k ≠ K → api_train_transcribers t K k = t k) := by
  refine ⟨rfl, rfl, rfl, ?_, ?_, ?_⟩
  · intro j e hj hjob
    match j with
    | 0 =>
      rw [show (api_train_events K queue)[0]? = some TrainEvent.acquireLock from rfl] at hj
      cases hj
      simp [TrainEvent.isJobEvent] at hjob
    | 1 =>
      rw [show (api_train_events K queue)[1]? = some (TrainEvent.invalidate K) from rfl] at hj
      cases hj
      simp [TrainEvent.isJobEvent] at hjob
    | 2 =>
      rw [show (api_train_events K queue)[2]? = some TrainEvent.releaseLock from rfl] at hj
      cases hj
      simp [TrainEvent.isJobEvent] at hjob
    | (n + 3) => omega
  · simp [api_train_transcribers]
  · intro k hk
    simp [api_train_transcribers, hk]

/-- Unfolding of the download loop on a nil chunk list. -/
theorem chunkLoopT_nil (total : Option Nat) (bytes : Nat) (last : ℚ) :
    chunkLoopT total [] bytes last = [] := rfl

/-- Unfolding of the download loop on a cons chunk list. -/
theorem chunkLoopT_cons (total : Option Nat) (c : Chunk) (rest : List Chunk)
    (bytes : Nat) (last : ℚ) :
    chunkLoopT total (c :: rest) bytes last =
      if 1 < c.time - last then
        (c.time, progressLine total (bytes + c.size))
          :: chunkLoopT total rest (bytes + c.size) c.time
      else chunkLoopT total rest (bytes + c.size) last := rfl

/-- The first report the loop makes after `last_report_time = last` is made
strictly more than one second after `last`. -/
theorem chunkLoopT_head_gap (total : Option Nat) :
    ∀ (chunks : List Chunk) (bytes : Nat) (last : ℚ) (x : ℚ × String)
      (rest : List (ℚ × String)),
      chunkLoopT total chunks bytes last = x :: rest → 1 < x.1 - last := by
  intro chunks
  induction chunks with
  | nil =>
    intro bytes last x rest h
    rw [chunkLoopT_nil] at h
    cases h
  | cons c cs ih =>
    intro bytes last x rest h
    rw [chunkLoopT_cons] at h
    by_cases hc : 1 < c.time - last
    · rw [if_pos hc] at h
      cases h
      exact hc
    · rw [if_neg hc] at h
      exact ih _ _ _ _ h

/-- C8: progress reports during a download are spaced strictly more than one
second apart: in the timed report list of the download loop, any two
consecutive reports were made at monotonic-clock readings more than one
second apart, because `last_report_time` is set to the reporting read of
`time.monotonic()` and the next report requires
`current_time - last_report_time > 1`. -/
theorem C8_progress_reports_spaced (total : Option Nat) (chunks : List Chunk)
    (bytes : Nat) (last : ℚ) :
    (chunkLoopT total chunks bytes last).Chain' (fun a b => 1 < b.1 - a.1) := by
  induction chunks generalizing bytes last with
  | nil => rw [chunkLoopT_nil]; exact List.chain'_nil
  | cons c cs ih =>
    rw [chunkLoopT_cons]
    by_cases hc : 1 < c.time - last
    · rw [if_pos hc]
      refine List.chain'_cons'.2 ⟨?_, ih _ _⟩
      intro y hy
      cases heq : chunkLoopT total cs (bytes + c.size) c.time with
      | nil => rw [heq] at hy; cases hy
      | cons z zs =>
        rw [heq] at hy
        cases hy
        exact chunkLoopT_head_gap total cs _ _ _ _ heq
    · rw [if_neg hc]
      exact ih _ _

/-- An `"ERROR: "`-prefixed chunk's character data starts with the seven
characters of `"ERROR: "`. -/
theorem errorChunk_data {s : String} (h : isErrorChunk s) :
    ∃ l, s.data = 'E' :: 'R' :: 'R' :: 'O' :: 'R' :: ':' :: ' ' :: l := by
  have h' : ∃ t, "ERROR: ".data ++ t = s.data := h
  rcases h' with ⟨t, ht⟩
  exact ⟨t, by rw [← ht]; rfl⟩

/-- A string whose second character is not `'R'` is not an `ERROR:` chunk. -/
theorem not_errorChunk_of_second {s : String} {c : Char}
    (hc : s.data[1]? = some c) (hne : c ≠ 'R') : ¬ isErrorChunk s := by
  intro h
  rcases errorChunk_data h with ⟨l, hl⟩
  rw [hl] at hc
  exact hne (Option.some.inj hc).symm

/-- A string whose first character is a digit is not an `ERROR:` chunk. -/
theorem not_errorChunk_of_first_digit {s : String} {c : Char}
    (hc : s.data[0]? = some c) (hd : c.isDigit = true) : ¬ isErrorChunk s := by
  intro h
  rcases errorChunk_data h with ⟨l, hl⟩
  rw [hl, List.getElem?_cons_zero] at hc
  rw [← Option.some.inj hc] at hd
  exact absurd hd (by decide)

/-- Characters produced for values below ten are decimal digits. -/
theorem digitChar_isDigit {k : Nat} (h : k < 10) :
    (Nat.digitChar k).isDigit = true := by
  interval_cases k <;> decide

/-- One unfolding of the decimal digit accumulator. -/
theorem toDigitsCore_succ (f n : Nat) (ds : List Char) :
    Nat.toDigitsCore 10 (f + 1) n ds =
      if n / 10 = 0 then Nat.digitChar (n % 10) :: ds
      else Nat.toDigitsCore 10 f (n / 10) (Nat.digitChar (n % 10) :: ds) := rfl

/-- Every character the decimal digit accumulator produces is a digit. -/
theorem toDigitsCore_digits :
    ∀ (fuel n : Nat) (ds : List Char), (∀ c ∈ ds, c.isDigit = true) →
      ∀ c ∈ Nat.toDigitsCore 10 fuel n ds, c.isDigit = true := by
  intro fuel
  induction fuel with
  | zero => intro n ds h c hc; exact h c hc
  | succ f ih =>
    intro n ds h c hc
    rw [toDigitsCore_succ] at hc
    by_cases hn : n / 10 = 0
    · rw [if_pos hn] at hc
      rcases List.mem_cons.mp hc with rfl | hc'
      · exact digitChar_isDigit (Nat.mod_lt _ (by norm_num))
      · exact h c hc'
    · rw [if_neg hn] at hc
      refine ih _ _ ?_ c hc
      intro c' hc'
      rcases List.mem_cons.mp hc' with rfl | hc''
      · exact digitChar_isDigit (Nat.mod_lt _ (by norm_num))
      · exact h c' hc''

/-- The decimal digit accumulator returns nil only from nil with no fuel. -/
theorem toDigitsCore_eq_nil :
    ∀ (fuel n : Nat) (ds : List Char),
      Nat.toDigitsCore 10 fuel n ds = [] → ds = [] ∧ fuel = 0 := by
  intro fuel
  induction fuel with
  | zero => intro n ds h; exact ⟨h, rfl⟩
  | succ f ih =>
    intro n ds h
    rw [toDigitsCore_succ] at h
    by_cases hn : n / 10 = 0
    · rw [if_pos hn] at h
      cases h
    · rw [if_neg hn] at h
      cases (ih _ _ h).1

/-- The decimal representation of a natural number is non-empty and starts
with a digit character. -/
theorem toString_nat_head_digit (p : Nat) :
    ∃ c cs, (toString p).data = c :: cs ∧ c.isDigit = true := by
  have hd : (toString p).data = Nat.toDigits 10 p := rfl
  cases he : Nat.toDigits 10 p with
  | nil =>
    have := toDigitsCore_eq_nil (p + 1) p [] he
    exact absurd this.2 (by omega)
  | cons c cs =>
    refine ⟨c, cs, by rw [hd, he], ?_⟩
    refine toDigitsCore_digits (p + 1) p [] (by simp) c ?_
    rw [show Nat.toDigitsCore 10 (p + 1) p [] = Nat.toDigits 10 p from rfl, he]
    exact List.mem_cons_self _ _

/-- Appending a newline-terminated suffix yields a newline-terminated
string. -/
theorem endsWithNewline_append (a b : String) (h : endsWithNewline b) :
    endsWithNewline (a ++ b) := by
  unfold endsWithNewline at h ⊢
  rw [String.data_append, List.getLast?_append, h]
  rfl

/-- An `"Expecting <N> byte(s)\n"` line is not an `ERROR:` chunk. -/
theorem not_errorChunk_expecting (n : Nat) :
    ¬ isErrorChunk ("Expecting " ++ toString n ++ " byte(s)\n") := by
  refine not_errorChunk_of_second (c := 'x') ?_ (by decide)
  rw [String.data_append, String.data_append]
  rfl

/-- A `"Bytes downloaded: <N>\n"` line is not an `ERROR:` chunk. -/
theorem not_errorChunk_bytesLine (n : Nat) :
    ¬ isErrorChunk ("Bytes downloaded: " ++ toString n ++ "\n") := by
  refine not_errorChunk_of_second (c := 'y') ?_ (by decide)
  rw [String.data_append, String.data_append]
  rfl

/-- A `"<percent>%\n"` line starts with a digit, so it is not an `ERROR:`
chunk. -/
theorem not_errorChunk_percentLine (p : Nat) :
    ¬ isErrorChunk (toString p ++ "%\n") := by
  rcases toString_nat_head_digit p with ⟨c, cs, hdata, hdig⟩
  refine not_errorChunk_of_first_digit (c := c) ?_ hdig
  rw [String.data_append, hdata]
  simp

/-- Every progress line of the download loop is newline-terminated and is
not an `ERROR:` chunk. -/
theorem progressLine_good (total : Option Nat) (b : Nat) :
    endsWithNewline (progressLine total b) ∧ ¬ isErrorChunk (progressLine total b) := by
  cases total with
  | none =>
    exact ⟨endsWithNewline_append _ _ (by decide), not_errorChunk_bytesLine b⟩
  | some t =>
    by_cases ht : 0 < t
    · have h1 : progressLine (some t) b = toString (b * 100 / t) ++ "%\n" := by
        simp only [progressLine, if_pos ht]
      rw [h1]
      exact ⟨endsWithNewline_append _ _ (by decide), not_errorChunk_percentLine _⟩
    · have h1 : progressLine (some t) b
          = "Bytes downloaded: " ++ toString b ++ "\n" := by
        simp only [progressLine, if_neg ht]
      rw [h1]
      exact ⟨endsWithNewline_append _ _ (by decide), not_errorChunk_bytesLine _⟩

/-- Every line the download loop yields is a progress line for some byte
count. -/
theorem mem_chunkLoop (total : Option Nat) :
    ∀ (chunks : List Chunk) (bytes : Nat) (last : ℚ) (s : String),
      s ∈ chunkLoop total chunks bytes last → ∃ b, s = progressLine total b := by
  intro chunks
  induction chunks with
  | nil =>
    intro bytes last s hs
    rw [chunkLoop, chunkLoopT_nil] at hs
    cases hs
  | cons c cs ih =>
    intro bytes last s hs
    rw [chunkLoop, chunkLoopT_cons] at hs
    by_cases hc : 1 < c.time - last
    · rw [if_pos hc, List.map_cons] at hs
      rcases List.mem_cons.mp hs with rfl | hs'
      · exact ⟨bytes + c.size, rfl⟩
      · exact ih _ _ s hs'
    · rw [if_neg hc] at hs
      exact ih _ _ s hs

/-- The lines the `try` body yields, split into the pre-loop lines, the
progress lines and the tail that depends on where (if anywhere) the body
raised. -/
theorem downloadRest_lines_eq (env : DownloadEnv) (pre : List String)
    (total : Option Nat) :
    (downloadRest env pre total).lines
      = pre ++ chunkLoop total env.chunks 0 env.startTime
          ++ (match env.readErr with
              | some _ => []
              | none =>
                match env.extractErr with
                | some _ => ["Download complete\n"]
                | none => ["Download complete\n", "Model extracted\n",
                    "Return to models page to continue\n"]) := by
  unfold downloadRest BodyOutcome.lines
  cases env.readErr <;> cases env.extractErr <;> simp

/-- Every line the `try` body of `download_model` yields — before the
`except` clause appends its `ERROR:` chunk, and wherever the body stops —
is newline-terminated and is not an `ERROR:` chunk. -/
theorem downloadRest_lines_good (env : DownloadEnv) (pre : List String)
    (total : Option Nat)
    (hpre : ∀ s ∈ pre, endsWithNewline s ∧ ¬ isErrorChunk s) :
    ∀ s ∈ (downloadRest env pre total).lines,
      endsWithNewline s ∧ ¬ isErrorChunk s := by
  intro s hs
  rw [downloadRest_lines_eq] at hs
  rcases List.mem_append.mp hs with h | h
  · rcases List.mem_append.mp h with h' | h'
    · exact hpre s h'
    · rcases mem_chunkLoop total env.chunks 0 env.startTime s h' with ⟨b, rfl⟩
      exact progressLine_good total b
  · revert h
    cases env.readErr with
    | some m => intro h; cases h
    | none =>
      cases env.extractErr with
      | some m =>
        intro h
        rcases List.mem_cons.mp h with rfl | h'
        · exact ⟨by decide, by decide⟩
        · cases h'
      | none =>
        intro h
        simp only [List.mem_cons, List.not_mem_nil, or_false] at h
        rcases h with rfl | rfl | rfl <;> exact ⟨by decide, by decide⟩

/-- Every line any run of the `try` body of `download_model` yields is
newline-terminated and is not an `ERROR:` chunk. -/
theorem download_body_lines_good (env : DownloadEnv) :
    ∀ s ∈ (download_body env).lines, endsWithNewline s ∧ ¬ isErrorChunk s := by
  intro s hs
  unfold download_body at hs
  by_cases hm : env.modelKnown = false
  · rw [if_pos hm] at hs
    cases hs
  · rw [if_neg hm] at hs
    revert hs
    cases env.urlopenErr with
    | some m => intro hs; cases hs
    | none =>
      cases env.contentLength with
      | none => intro hs; exact downloadRest_lines_good env [] none (by simp) s hs
      | some cl =>
        dsimp only
        by_cases hcl : cl.isEmpty = true
        · rw [if_pos hcl]
          intro hs
          exact downloadRest_lines_good env [] none (by simp) s hs
        · rw [if_neg hcl]
          cases parsePyInt cl with
          | none => intro hs; cases hs
          | some n =>
            intro hs
            refine downloadRest_lines_good env _ (some n) ?_ s hs
            intro s' hs'
            rcases List.mem_cons.mp hs' with rfl | h'
            · exact ⟨endsWithNewline_append _ _ (by decide), not_errorChunk_expecting n⟩
            · cases h'

/-- C4: for every exception raised at any point inside the download job
body, the generator `download_model` yields the lines the body produced
before raising, then exactly one `"ERROR: <message>"` item as its final
item — no item after it, no other `ERROR:`-shaped item among the earlier
lines — and, being a total function of its environment, terminates without
propagating the exception to its caller. -/
theorem C4_download_failure_single_error_line (env : DownloadEnv)
    (lines : List String) (m : String)
    (h : download_body env = .fail lines m) :
    download_model env = lines ++ ["ERROR: " ++ m]
      ∧ (download_model env).getLast? = some ("ERROR: " ++ m)
      ∧ isErrorChunk ("ERROR: " ++ m)
      ∧ ∀ s ∈ lines, ¬ isErrorChunk s := by
  have hm : download_model env = lines ++ ["ERROR: " ++ m] := by
    unfold download_model
    rw [h]
  refine ⟨hm, ?_, ?_, ?_⟩
  · rw [hm]
    exact List.getLast?_concat _
  · show "ERROR: ".data <+: ("ERROR: " ++ m).data
    rw [String.data_append]
    exact List.prefix_append _ _
  · intro s hs
    exact (download_body_lines_good env s (by rw [h]; exact hs)).2

/-- Witness for C4 at a concrete failing environment: an unknown model id
makes the `assert` at line 70 raise before anything is yielded, and the
stream is the single `"ERROR: Unknown model: x"` chunk. -/
theorem C4_download_failure_witness :
    download_model downloadEnvUnknownModel = [] ++ ["ERROR: " ++ "Unknown model: x"]
      ∧ (download_model downloadEnvUnknownModel).getLast?
          = some ("ERROR: " ++ "Unknown model: x")
      ∧ isErrorChunk ("ERROR: " ++ "Unknown model: x")
      ∧ ∀ s ∈ ([] : List String), ¬ isErrorChunk s :=
  C4_download_failure_single_error_line downloadEnvUnknownModel [] "Unknown model: x"
    (by decide)

/-- C5 counterexample: the claim says every chunk of the streamed bodies —
including the terminal `"ERROR: <message>"` chunk — is newline-terminated.
The `yield f"ERROR: {err}"` at web_server.py line 104 has no trailing
newline: for the unknown-model environment the stream contains the chunk
`"ERROR: Unknown model: x"`, whose last character is not a newline. -/
theorem C5_error_chunk_without_newline :
    "ERROR: Unknown model: x" ∈ download_model downloadEnvUnknownModel
      ∧ ¬ endsWithNewline "ERROR: Unknown model: x" := by
  constructor
  · decide
  · decide

/-- C5 as amended: every chunk of the streamed `/api/download` body either
ends in a newline character or is the terminal `"ERROR: <message>"` chunk
(which carries no newline of its own), and every chunk of the streamed
`/api/train` body ends in a newline. -/
theorem C5_chunks_newline_terminated_or_error :
    (∀ env : DownloadEnv, ∀ c ∈ download_model env,
        endsWithNewline c ∨ isErrorChunk c)
      ∧ (∀ queue : List (Option LogRecord), ∀ c ∈ do_training queue,
          endsWithNewline c) := by
  constructor
  · intro env c hc
    unfold download_model at hc
    cases hb : download_body env with
    | ok lines =>
      rw [hb] at hc
      exact Or.inl (download_body_lines_good env c (by rw [hb]; exact hc)).1
    | fail lines m =>
      rw [hb] at hc
      have hc' : c ∈ lines ++ ["ERROR: " ++ m] := hc
      rcases List.mem_append.mp hc' with h | h
      · exact Or.inl (download_body_lines_good env c (by rw [hb]; exact h)).1
      · rcases List.mem_cons.mp h with rfl | h'
        · refine Or.inr ?_
          show "ERROR: ".data <+: ("ERROR: " ++ m).data
          rw [String.data_append]
          exact List.prefix_append _ _
        · cases h'
  · intro queue c hc
    have hc' : c = "Training started\n" ∨ c ∈ drainLoop queue :=
      List.mem_cons.mp hc
    rcases hc' with rfl | h
    · decide
    · induction queue with
      | nil => cases h
      | cons q rest ih =>
        cases q with
        | none =>
          rcases List.mem_cons.mp h with rfl | h'
          · decide
          · cases h'
        | some r =>
          have h' : c = r.getMessage ++ "\n" ∨ c ∈ drainLoop rest :=
            List.mem_cons.mp h
          rcases h' with rfl | h''
          · exact endsWithNewline_append _ _ (by decide)
          · exact ih (List.mem_cons_of_mem _ h'') h''

/-- A successful run of the `try` body yields the pre-loop lines, the
progress lines, and the three closing lines. -/
theorem downloadRest_ok (env : DownloadEnv) (pre : List String)
    (total : Option Nat) (lines : List String)
    (h : downloadRest env pre total = .ok lines) :
    lines = pre ++ chunkLoop total env.chunks 0 env.startTime
      ++ ["Download complete\n", "Model extracted\n",
          "Return to models page to continue\n"] := by
  unfold downloadRest at h
  revert h
  cases env.readErr with
  | some m => intro h; cases h
  | none =>
    cases env.extractErr with
    | some m => intro h; cases h
    | none =>
      intro h
      injection h with h
      rw [← h, List.append_assoc]

/-- C6 as amended: a successful download job streams, in order: an
`"Expecting <N> byte(s)\n"` line exactly when the response carries a
Content-Length header with a non-empty (necessarily numeric) value, then the
loop's progress lines — each a `"<percent>%\n"` or
`"Bytes downloaded: <N>\n"` line as `progressLine` prescribes for the parsed
total — then `"Download complete\n"`, `"Model extracted\n"` and
`"Return to models page to continue\n"` as the final line.  (The original
claim's "if and only if the response carries a Content-Length header" fails
for a header carrying an empty value, which Python truthiness skips.) -/
theorem C6_success_stream_order (env : DownloadEnv) (lines : List String)
    (h : download_body env = .ok lines) :
    ∃ total pre,
      lines = pre ++ chunkLoop total env.chunks 0 env.startTime
          ++ ["Download complete\n", "Model extracted\n",
              "Return to models page to continue\n"]
        ∧ ((pre = [] ∧ total = none
              ∧ (env.contentLength = none ∨ env.contentLength = some ""))
            ∨ (∃ cl n, env.contentLength = some cl ∧ cl.isEmpty = false
                ∧ parsePyInt cl = some n ∧ total = some n
                ∧ pre = ["Expecting " ++ toString n ++ " byte(s)\n"]))
        ∧ ∀ s ∈ chunkLoop total env.chunks 0 env.startTime,
            ∃ b, s = progressLine total b := by
  unfold download_body at h
  by_cases hm : env.modelKnown = false
  · rw [if_pos hm] at h
    cases h
  · rw [if_neg hm] at h
    revert h
    cases env.urlopenErr with
    | some m => intro h; cases h
    | none =>
      cases hcc : env.contentLength with
      | none =>
        intro h
        exact ⟨none, [], downloadRest_ok env [] none lines h,
          Or.inl ⟨rfl, rfl, Or.inl rfl⟩,
          fun s hs => mem_chunkLoop none env.chunks 0 env.startTime s hs⟩
      | some cl =>
        dsimp only
        by_cases hcl : cl.isEmpty = true
        · rw [if_pos hcl]
          intro h
          refine ⟨none, [], downloadRest_ok env [] none lines h,
            Or.inl ⟨rfl, rfl, Or.inr ?_⟩,
            fun s hs => mem_chunkLoop none env.chunks 0 env.startTime s hs⟩
          rw [String.isEmpty_iff] at hcl
          rw [hcl]
        · rw [if_neg hcl]
          cases hp : parsePyInt cl with
          | none => intro h; cases h
          | some n =>
            intro h
            exact ⟨some n, ["Expecting " ++ toString n ++ " byte(s)\n"],
              downloadRest_ok env _ (some n) lines h,
              Or.inr ⟨cl, n, rfl, by simpa using hcl, hp, rfl, rfl⟩,
              fun s hs => mem_chunkLoop (some n) env.chunks 0 env.startTime s hs⟩

/-- C6 counterexample: the claim's "an Expecting line if and only if the
response carries a Content-Length header" fails when the header is present
with an empty value: `if content_length:` is false, the job succeeds, and no
chunk of the stream is an `"Expecting ..."` line although the header is
present. -/
theorem C6_expecting_iff_header_counterexample :
    downloadEnvEmptyContentLength.contentLength = some ""
      ∧ download_body downloadEnvEmptyContentLength
          = .ok ["Download complete\n", "Model extracted\n",
              "Return to models page to continue\n"]
      ∧ ∀ c ∈ download_model downloadEnvEmptyContentLength,
          ¬ ("Expecting ".data <+: c.data) := by
  refine ⟨rfl, by decide, by decide⟩

/-- Witness for C6 at a concrete successful environment: Content-Length
`"1000"` and no progress report due, so the stream is the Expecting line
and the three closing lines. -/
theorem C6_success_stream_order_witness :
    ∃ total pre,
      ["Expecting 1000 byte(s)\n", "Download complete\n",
          "Model extracted\n", "Return to models page to continue\n"]
        = pre ++ chunkLoop total downloadEnvHappy.chunks 0 downloadEnvHappy.startTime
          ++ ["Download complete\n", "Model extracted\n",
              "Return to models page to continue\n"]
        ∧ ((pre = [] ∧ total = none
              ∧ (downloadEnvHappy.contentLength = none
                  ∨ downloadEnvHappy.contentLength = some ""))
            ∨ (∃ cl n, downloadEnvHappy.contentLength = some cl
                ∧ cl.isEmpty = false
                ∧ parsePyInt cl = some n ∧ total = some n
                ∧ pre = ["Expecting " ++ toString n ++ " byte(s)\n"]))
        ∧ ∀ s ∈ chunkLoop total downloadEnvHappy.chunks 0 downloadEnvHappy.startTime,
            ∃ b, s = progressLine total b :=
  C6_success_stream_order downloadEnvHappy
    ["Expecting 1000 byte(s)\n", "Download complete\n",
      "Model extracted\n", "Return to models page to continue\n"] (by decide)

/-- A step by the first request preserves the lock invariant. -/
theorem phaseStep_inv1 :
    ∀ (lk l : Bool) (p1 p2 p : JobPhase),
      trainInvB { lockHeld := lk, job1 := p1, job2 := p2 } = true →
      phaseStep lk p1 = some (l, p) →
      trainInvB { lockHeld := l, job1 := p, job2 := p2 } = true := by
  decide

/-- A step by the second request preserves the lock invariant. -/
theorem phaseStep_inv2 :
    ∀ (lk l : Bool) (p1 p2 p : JobPhase),
      trainInvB { lockHeld := lk, job1 := p1, job2 := p2 } = true →
      phaseStep lk p2 = some (l, p) →
      trainInvB { lockHeld := l, job1 := p1, job2 := p } = true := by
  decide

/-- The lock invariant rules out both requests being inside the
lock-protected section at once. -/
theorem trainInvB_implies :
    ∀ s : TrainSys, trainInvB s = true →
      ¬ (inCritical s.job1 ∧ inCritical s.job2) := by
  decide

/-- C2 as amended: what the single `state.transcribers_lock` actually
guarantees for two concurrent `/api/train` requests for the same key: their
lock-protected invalidation sections never overlap — in every reachable
state at most one request is between acquiring the lock and leaving the
`async with` block.  (The original claim's exclusion of overlapping
"invalidate → running" windows does not hold: the lock is released before
the training job runs, see the counterexample.) -/
theorem C2_lock_section_mutual_exclusion (s : TrainSys)
    (h : TrainReachable s) :
    ¬ (inCritical s.job1 ∧ inCritical s.job2) := by
  have hinv : trainInvB s = true := by
    induction h with
    | init => decide
    | step hr hst ih =>
      cases hst with
      | j1 hp => exact phaseStep_inv1 _ _ _ _ _ ih hp
      | j2 hp => exact phaseStep_inv2 _ _ _ _ _ ih hp
  exact trainInvB_implies s hinv

/-- Witness for C2 at the initial state of the two-request system. -/
theorem C2_lock_section_mutual_exclusion_witness :
    ¬ (inCritical initSys.job1 ∧ inCritical initSys.job2) :=
  C2_lock_section_mutual_exclusion initSys TrainReachable.init

/-- C2 counterexample: the state in which both requests' jobs are running —
both "invalidate → running" windows open at once — is reachable: the first
request acquires the lock, pops, releases the lock and starts its job; the
lock being free, the second request then does the same while the first job
is still running.  The code's lock covers only the pop, so it does not give
"at most one training job per key at any time". -/
theorem C2_overlapping_windows_counterexample :
    TrainReachable overlapSys
      ∧ windowActive overlapSys.job1 ∧ windowActive overlapSys.job2 := by
  refine ⟨?_, by decide, by decide⟩
  have h0 : TrainReachable
      { lockHeld := false, job1 := JobPhase.start, job2 := JobPhase.start } :=
    TrainReachable.init
  have h1 : TrainReachable
      { lockHeld := true, job1 := JobPhase.locked, job2 := JobPhase.start } :=
    h0.step (TrainStep.j1 rfl)
  have h2 : TrainReachable
      { lockHeld := true, job1 := JobPhase.popped, job2 := JobPhase.start } :=
    h1.step (TrainStep.j1 rfl)
  have h3 : TrainReachable
      { lockHeld := false, job1 := JobPhase.released, job2 := JobPhase.start } :=
    h2.step (TrainStep.j1 rfl)
  have h4 : TrainReachable
      { lockHeld := false, job1 := JobPhase.running, job2 := JobPhase.start } :=
    h3.step (TrainStep.j1 rfl)
  have h5 : TrainReachable
      { lockHeld := true, job1 := JobPhase.running, job2 := JobPhase.locked } :=
    h4.step (TrainStep.j2 rfl)
  have h6 : TrainReachable
      { lockHeld := true, job1 := JobPhase.running, job2 := JobPhase.popped } :=
    h5.step (TrainStep.j2 rfl)
  have h7 : TrainReachable
      { lockHeld := false, job1 := JobPhase.running, job2 := JobPhase.released } :=
    h6.step (TrainStep.j2 rfl)
  exact h7.step (TrainStep.j2 rfl)

/-- C10: a POST to `/sentences` whose body fails validation — the YAML does
not parse, has no `"sentences"` key, or maps it to an empty value — changes
no state at all: every model's `sentences.yaml` contents and every
`skip_words` entry are exactly as before and the form is re-rendered; and on
the success path the file write and the `skip_words` update happen
together. -/
theorem C10_sentences_validation_failure_no_state_change
    (modelId body : String) (load : Except String Yaml) (st : SentencesState) :
    (∀ e, validateSentences load = .error e →
        sentences_post modelId body load st = (st, false))
      ∧ (∀ d, validateSentences load = .ok d →
          (sentences_post modelId body load st).1.files modelId = some body
            ∧ (sentences_post modelId body load st).1.skipWords modelId
                = some (pyDictGetD d "skip_words" (Yaml.ylist []))
            ∧ (sentences_post modelId body load st).2 = true) := by
  constructor
  · intro e he
    unfold sentences_post
    rw [he]
  · intro d hd
    unfold sentences_post
    rw [hd]
    exact ⟨by simp, by simp, rfl⟩
